import Mathlib

/-!
Verification of the RGB888/BGR888 → RGB565 pixel conversion NIF
(`to_565` in `c_src/st7789.cpp`) against its specification.

The conversion is embedded shallowly: the input binary is a `List Nat`
of byte values, channel-order atoms are `String`s (the C code converts
the atoms to `std::string` and compares against `"bgr"`), and the
fallible NIF is an `Except`.  The C code validates `binary.size % 24 == 0`,
allocates `size / 24 * 16` output bytes (equal to `2 * (size / 3)` under
that check), and for each pixel `i` reads bytes at offsets
`3i + r_offset`, `3i + 1`, `3i + b_offset`, packs them into a 16-bit
RGB565/BGR565 value, byte-swaps it and stores it as a little-endian
`uint16_t`, i.e. emits the packed value big-endian.
-/

namespace St7789

/-- Error outcomes of the conversion, following the spec's taxonomy.
The C code signals `MalformedInput` as `"malformed BGR888/RGB888 binary
data"`; it has no code path producing `InvalidChannelOrder`. -/
inductive ConvError where
  | MalformedInput
  | InvalidChannelOrder
  | AllocationFailure
  deriving DecidableEq, Repr

/-- `r_offset` in the C code: 2 when the source order is `bgr`, else 0. -/
def r_offset (source : String) : Nat :=
  if source = "bgr" then 2 else 0

/-- `b_offset` in the C code: 0 when the source order is `bgr`, else 2. -/
def b_offset (source : String) : Nat :=
  if source = "bgr" then 0 else 2

/-- The packed 16-bit value `format565` computed for pixel `i`:
`((r & 0xF8) << 8) | ((g & 0xFC) << 3) | ((b & 0xF8) >> 3)` in the
non-`bgr` target branch, with `b` and `r` exchanged in the `bgr`
target branch, where `r`, `g`, `b` are the bytes at offsets
`i*3 + r_offset`, `i*3 + 1`, `i*3 + b_offset`. -/
def format565 (input : List Nat) (source target : String) (i : Nat) : Nat :=
  let index := i * 3
  let r := input.getD (index + r_offset source) 0
  let g := input.getD (index + 1) 0
  let b := input.getD (index + b_offset source) 0
  if target = "bgr" then
    ((b &&& 0xF8) <<< 8) ||| ((g &&& 0xFC) <<< 3) ||| ((r &&& 0xF8) >>> 3)
  else
    ((r &&& 0xF8) <<< 8) ||| ((g &&& 0xFC) <<< 3) ||| ((b &&& 0xF8) >>> 3)

/-- `data[i] = (format565>>8) | (format565<<8)` truncated to `uint16_t`. -/
def swap16 (f : Nat) : Nat :=
  ((f >>> 8) ||| (f <<< 8)) % 65536

/-- The two bytes of a `uint16_t` value as laid out in the result binary
(little-endian host storage: low byte first). -/
def store16le (v : Nat) : List Nat :=
  [v % 256, v / 256 % 256]

/-- The bytes of the output binary: one byte-swapped 16-bit sample per
pixel, `num_pixels = size / 3` pixels. -/
def output565 (input : List Nat) (source target : String) : List Nat :=
  (List.range (input.length / 3)).flatMap
    fun i => store16le (swap16 (format565 input source target i))

/-- The `to_565` NIF: rejects inputs whose length is not a multiple of 24
with the malformed-input error, otherwise returns the converted binary. -/
def to_565 (input : List Nat) (source target : String) :
    Except ConvError (List Nat) :=
  if input.length % 24 == 0 then
    Except.ok (output565 input source target)
  else
    Except.error ConvError.MalformedInput

/-- Per-pixel byte reversal of an RGB888 buffer (each 3-byte record
reversed in place), used to relate the two source orders. -/
def reverse_pixels : List Nat → List Nat
  | b0 :: b1 :: b2 :: rest => b2 :: b1 :: b0 :: reverse_pixels rest
  | rest => rest

/-- The packed 16-bit sample as the spec states it (to be compared with
`format565` from the code): `(r,g,b)` resolved from the three bytes at
offset `3i` according to the source order (`rgb` in order, `bgr`
reversed), channels truncated by masking (`r & 0xF8`, `g & 0xFC`,
`b & 0xF8`) and shifted into place, fields per the target order
(`rgb`: bits 15:11 = r5, 10:5 = g6, 4:0 = b5; `bgr`: r5 and b5
exchanged). -/
def spec_pack565 (input : List Nat) (source target : String) (i : Nat) : Nat :=
  let r := input.getD (3 * i + (if source = "bgr" then 2 else 0)) 0
  let g := input.getD (3 * i + 1) 0
  let b := input.getD (3 * i + (if source = "bgr" then 0 else 2)) 0
  if target = "bgr" then
    ((b &&& 0xF8) <<< 8) ||| ((g &&& 0xFC) <<< 3) ||| ((r &&& 0xF8) >>> 3)
  else
    ((r &&& 0xF8) <<< 8) ||| ((g &&& 0xFC) <<< 3) ||| ((b &&& 0xF8) >>> 3)

end St7789

namespace St7789

/-! ### Arithmetic helper lemmas -/

theorem pack_lt (r g b : Nat) :
    ((r &&& 0xF8) <<< 8) ||| ((g &&& 0xFC) <<< 3) ||| ((b &&& 0xF8) >>> 3) < 65536 := by
  have hr : r &&& 0xF8 ≤ 0xF8 := Nat.and_le_right
  have hg : g &&& 0xFC ≤ 0xFC := Nat.and_le_right
  have hb : b &&& 0xF8 ≤ 0xF8 := Nat.and_le_right
  have h1 : (r &&& 0xF8) <<< 8 < 2 ^ 16 := by
    rw [Nat.shiftLeft_eq]; norm_num; omega
  have h2 : (g &&& 0xFC) <<< 3 < 2 ^ 16 := by
    rw [Nat.shiftLeft_eq]; norm_num; omega
  have h3 : (b &&& 0xF8) >>> 3 < 2 ^ 16 := by
    rw [Nat.shiftRight_eq_div_pow]; norm_num; omega
  have := Nat.or_lt_two_pow (Nat.or_lt_two_pow h1 h2) h3
  norm_num at this
  exact this

theorem format565_lt (input : List Nat) (source target : String) (i : Nat) :
    format565 input source target i < 65536 := by
  unfold format565
  split <;> exact pack_lt ..

theorem swap16_bytes (f : Nat) (hf : f < 65536) :
    swap16 f % 256 = f / 256 ∧ swap16 f / 256 % 256 = f % 256 := by
  have h1 : f >>> 8 = f / 256 := by
    rw [Nat.shiftRight_eq_div_pow]
  have h2 : f <<< 8 = 2 ^ 8 * f := by
    rw [Nat.shiftLeft_eq]; ring
  have h3 : (f >>> 8) ||| (f <<< 8) = 2 ^ 8 * f + f / 256 := by
    rw [h1, h2, Nat.lor_comm]
    exact (Nat.mul_add_lt_is_or (by omega) f).symm
  have h4 : swap16 f = (256 * f + f / 256) % 65536 := by
    unfold swap16
    rw [h3]
    norm_num
  rw [h4]
  clear h1 h2 h3 h4
  obtain ⟨q, r, hq, hr, hf2⟩ : ∃ q r, q < 256 ∧ r < 256 ∧ f = 256 * q + r :=
    ⟨f / 256, f % 256, by omega, by omega, by omega⟩
  subst hf2
  have e1 : (256 * q + r) / 256 = q := by omega
  have e2 : (256 * q + r) % 256 = r := by omega
  rw [e1, e2]
  have e3 : 256 * (256 * q + r) + q = 65536 * q + (256 * r + q) := by ring
  rw [e3]
  have e4 : (65536 * q + (256 * r + q)) % 65536 = 256 * r + q := by omega
  rw [e4]
  clear e1 e2 e3 e4 hf
  constructor <;> omega

/-! ### Indexing the flat-mapped output buffer -/

theorem flatMap_pair_length (n : Nat) (u v : Nat → Nat) :
    ((List.range n).flatMap fun i => [u i, v i]).length = 2 * n := by
  induction n with
  | zero => simp
  | succ n ih =>
    rw [List.range_succ, List.flatMap_append]
    simp [ih]
    omega

theorem flatMap_pair_getD (n : Nat) (u v : Nat → Nat) (i : Nat) (h : i < n) :
    ((List.range n).flatMap fun j => [u j, v j]).getD (2 * i) 0 = u i ∧
    ((List.range n).flatMap fun j => [u j, v j]).getD (2 * i + 1) 0 = v i := by
  induction n with
  | zero => omega
  | succ n ih =>
    rw [List.range_succ, List.flatMap_append]
    have hl : ((List.range n).flatMap fun j => [u j, v j]).length = 2 * n :=
      flatMap_pair_length n u v
    by_cases hi : i < n
    · obtain ⟨e1, e2⟩ := ih hi
      constructor
      · rw [List.getD_eq_getElem?_getD, List.getElem?_append_left (by omega),
          ← List.getD_eq_getElem?_getD]
        exact e1
      · rw [List.getD_eq_getElem?_getD, List.getElem?_append_left (by omega),
          ← List.getD_eq_getElem?_getD]
        exact e2
    · have hin : i = n := by omega
      subst hin
      constructor
      · rw [List.getD_eq_getElem?_getD, List.getElem?_append_right (by omega)]
        simp [hl]
      · rw [List.getD_eq_getElem?_getD, List.getElem?_append_right (by omega)]
        simp [hl]

theorem output565_length (input : List Nat) (source target : String) :
    (output565 input source target).length = 2 * (input.length / 3) := by
  unfold output565
  simp only [store16le]
  exact flatMap_pair_length _ _ _

theorem output565_getD (input : List Nat) (source target : String) (i : Nat)
    (h : i < input.length / 3) :
    (output565 input source target).getD (2 * i) 0 =
      format565 input source target i / 256 ∧
    (output565 input source target).getD (2 * i + 1) 0 =
      format565 input source target i % 256 := by
  have hb := swap16_bytes (format565 input source target i)
    (format565_lt input source target i)
  have hp := flatMap_pair_getD (input.length / 3)
    (fun j => swap16 (format565 input source target j) % 256)
    (fun j => swap16 (format565 input source target j) / 256 % 256) i h
  unfold output565
  simp only [store16le]
  exact ⟨hp.1.trans hb.1, hp.2.trans hb.2⟩

end St7789

namespace St7789

theorem rgb_ne_bgr : ("rgb" : String) ≠ "bgr" := by decide

/-! ### Congruence of the conversion -/

theorem range_flatMap_congr (n : Nat) (f g : Nat → List Nat)
    (h : ∀ i, i < n → f i = g i) :
    (List.range n).flatMap f = (List.range n).flatMap g := by
  induction n with
  | zero => simp
  | succ n ih =>
    rw [List.range_succ, List.flatMap_append, List.flatMap_append,
      ih fun i hi => h i (by omega)]
    simp [h n (by omega)]

theorem to_565_congr (a b : List Nat) (s1 t1 s2 t2 : String)
    (hlen : a.length = b.length)
    (h : ∀ i, i < a.length / 3 → format565 a s1 t1 i = format565 b s2 t2 i) :
    to_565 a s1 t1 = to_565 b s2 t2 := by
  unfold to_565 output565
  rw [← hlen]
  by_cases h24 : a.length % 24 = 0
  · simp only [h24]
    rw [range_flatMap_congr (a.length / 3) _ _ fun i hi => by rw [h i hi]]
  · have : (a.length % 24 == 0) = false := by simp [h24]
    rw [this]
    simp

/-! ### Per-pixel byte reversal -/

theorem reverse_pixels_getD : ∀ (l : List Nat) (i : Nat), 3 * i + 2 < l.length →
    (reverse_pixels l).getD (3 * i) 0 = l.getD (3 * i + 2) 0 ∧
    (reverse_pixels l).getD (3 * i + 1) 0 = l.getD (3 * i + 1) 0 ∧
    (reverse_pixels l).getD (3 * i + 2) 0 = l.getD (3 * i) 0
  | b0 :: b1 :: b2 :: rest, 0, _ => by simp [reverse_pixels]
  | b0 :: b1 :: b2 :: rest, i + 1, h => by
    obtain ⟨ih1, ih2, ih3⟩ := reverse_pixels_getD rest i (by simp at h; omega)
    simp only [List.getD_eq_getElem?_getD] at ih1 ih2 ih3
    simp only [reverse_pixels]
    refine ⟨?_, ?_, ?_⟩
    · rw [show 3 * (i + 1) + 2 = 3 * i + 2 + 1 + 1 + 1 from by ring,
        show 3 * (i + 1) = 3 * i + 1 + 1 + 1 from by ring]
      simp only [List.getD_eq_getElem?_getD, List.getElem?_cons_succ]
      exact ih1
    · rw [show 3 * (i + 1) + 1 = 3 * i + 1 + 1 + 1 + 1 from by ring]
      simp only [List.getD_eq_getElem?_getD, List.getElem?_cons_succ]
      exact ih2
    · rw [show 3 * (i + 1) + 2 = 3 * i + 2 + 1 + 1 + 1 from by ring,
        show 3 * (i + 1) = 3 * i + 1 + 1 + 1 from by ring]
      simp only [List.getD_eq_getElem?_getD, List.getElem?_cons_succ]
      exact ih3
  | [], _, h => by simp at h
  | [_], _, h => by simp at h
  | [_, _], _, h => by simp at h

theorem reverse_pixels_length : ∀ l : List Nat, (reverse_pixels l).length = l.length
  | _ :: _ :: _ :: rest => by
    simp [reverse_pixels, reverse_pixels_length rest]
  | [] => rfl
  | [_] => rfl
  | [_, _] => rfl

end St7789

namespace St7789

/-! ### format565 bridging lemmas -/

theorem spec_pack565_eq_format565 (input : List Nat) (source target : String)
    (i : Nat) : spec_pack565 input source target i = format565 input source target i := by
  simp only [spec_pack565, format565, r_offset, b_offset, Nat.mul_comm i 3]

theorem format565_congr (a b : List Nat) (source target : String) (i : Nat)
    (h0 : a.getD (i * 3) 0 &&& 0xF8 = b.getD (i * 3) 0 &&& 0xF8)
    (h1 : a.getD (i * 3 + 1) 0 &&& 0xFC = b.getD (i * 3 + 1) 0 &&& 0xFC)
    (h2 : a.getD (i * 3 + 2) 0 &&& 0xF8 = b.getD (i * 3 + 2) 0 &&& 0xF8) :
    format565 a source target i = format565 b source target i := by
  simp only [List.getD_eq_getElem?_getD] at h0 h1 h2
  by_cases hs : source = "bgr" <;> by_cases ht : target = "bgr" <;>
    simp [format565, r_offset, b_offset, hs, ht] <;> rw [h0, h1, h2]

theorem format565_const (input : List Nat) (source target : String) (i c : Nat)
    (h0 : input.getD (i * 3) 0 = c) (h1 : input.getD (i * 3 + 1) 0 = c)
    (h2 : input.getD (i * 3 + 2) 0 = c) :
    format565 input source target i =
      ((c &&& 0xF8) <<< 8) ||| ((c &&& 0xFC) <<< 3) ||| ((c &&& 0xF8) >>> 3) := by
  simp only [List.getD_eq_getElem?_getD] at h0 h1 h2
  by_cases hs : source = "bgr" <;> by_cases ht : target = "bgr" <;>
    simp [format565, r_offset, b_offset, hs, ht, h0, h1, h2]

end St7789

namespace St7789

/-! ### Claim theorems -/

/-- C1 counterexample: the single-pixel input `[0xFF, 0x00, 0x80]` (length 3)
with source and target order `rgb` does not succeed; the conversion rejects
it as malformed, because 3 is not a multiple of 24. -/
theorem to_565_single_pixel_rejected :
    to_565 [0xFF, 0x00, 0x80] "rgb" "rgb" = Except.error ConvError.MalformedInput :=
  rfl

/-- C1 (amended): for the 24-byte input consisting of eight copies of the
pixel `[0xFF, 0x00, 0x80]` with `source_order = rgb` and
`target_order = rgb`, the conversion succeeds and returns eight copies of
the big-endian pair `[0xF8, 0x10]` (the packed RGB565 value 0xF810). -/
theorem to_565_concrete_scenario :
    to_565 [0xFF, 0x00, 0x80, 0xFF, 0x00, 0x80, 0xFF, 0x00, 0x80, 0xFF, 0x00, 0x80,
            0xFF, 0x00, 0x80, 0xFF, 0x00, 0x80, 0xFF, 0x00, 0x80, 0xFF, 0x00, 0x80]
        "rgb" "rgb" =
      Except.ok [0xF8, 0x10, 0xF8, 0x10, 0xF8, 0x10, 0xF8, 0x10,
                 0xF8, 0x10, 0xF8, 0x10, 0xF8, 0x10, 0xF8, 0x10] :=
  rfl

/-- C2: every input whose length is not a multiple of 3 is rejected with
the malformed-input error (lengths not divisible by 3 are in particular
not divisible by 24), and no output buffer is produced. -/
theorem to_565_rejects_non_pixel_aligned (input : List Nat)
    (source target : String) (h : input.length % 3 ≠ 0) :
    to_565 input source target = Except.error ConvError.MalformedInput := by
  have h24 : input.length % 24 ≠ 0 := by omega
  simp [to_565, h24]

/-- Witness for C2 at the concrete 2-byte input `[0x01, 0x02]`. -/
theorem to_565_rejects_non_pixel_aligned_witness :
    ([0x01, 0x02] : List Nat).length % 3 ≠ 0 ∧
    to_565 [0x01, 0x02] "rgb" "rgb" = Except.error ConvError.MalformedInput :=
  ⟨by decide, to_565_rejects_non_pixel_aligned [0x01, 0x02] "rgb" "rgb" (by decide)⟩

/-- C3 counterexample: the 6-byte (two-pixel) input of zeros is
pixel-aligned, yet the conversion fails with the malformed-input error
instead of succeeding with a 4-byte output, because 6 is not a multiple
of 24. -/
theorem to_565_two_pixels_rejected :
    ([0, 0, 0, 0, 0, 0] : List Nat).length % 3 = 0 ∧
    to_565 [0, 0, 0, 0, 0, 0] "rgb" "rgb" = Except.error ConvError.MalformedInput :=
  ⟨by decide, rfl⟩

/-- C3 (amended): for every input whose length is a multiple of 24, the
conversion succeeds and the output length is `2 * (len(input) / 3)`. -/
theorem to_565_size_law (input : List Nat) (source target : String)
    (h : input.length % 24 = 0) :
    ∃ out, to_565 input source target = Except.ok out ∧
      out.length = 2 * (input.length / 3) :=
  ⟨output565 input source target, by simp [to_565, h],
    output565_length input source target⟩

/-- Witness for C3 at a concrete 24-byte input (output has 16 bytes). -/
theorem to_565_size_law_witness :
    (List.replicate 24 (0 : Nat)).length % 24 = 0 ∧
    ∃ out, to_565 (List.replicate 24 (0 : Nat)) "rgb" "rgb" = Except.ok out ∧
      out.length = 2 * ((List.replicate 24 (0 : Nat)).length / 3) :=
  ⟨by decide, to_565_size_law (List.replicate 24 (0 : Nat)) "rgb" "rgb" (by decide)⟩

/-- C4 counterexample: the unrecognized channel-order tag `"xyz"` is not
rejected with an invalid-channel-order error; the conversion succeeds on a
valid 24-byte input and produces an output buffer (treating the tag as
`rgb`). -/
theorem to_565_unknown_tag_accepted :
    to_565 (List.replicate 24 (0 : Nat)) "xyz" "rgb" =
      Except.ok (List.replicate 16 (0 : Nat)) :=
  rfl

/-- C4 (amended): no channel-order tag is ever rejected: for every input
and every pair of tag values (recognized or not), the conversion never
fails with the invalid-channel-order error; tags other than `bgr` are
treated as `rgb`. -/
theorem to_565_never_invalid_channel_order (input : List Nat)
    (source target : String) :
    to_565 input source target ≠ Except.error ConvError.InvalidChannelOrder := by
  unfold to_565
  split <;> simp

end St7789

namespace St7789

/-- C5: for every accepted input and every pixel index `i`, the output
bytes at offsets `2i` and `2i+1` are the big-endian bytes (high byte
first) of the 16-bit packed sample described by the spec
(`spec_pack565`: channels resolved by source order, truncated by masking,
fields placed by target order). -/
theorem to_565_pixel_bigendian (input : List Nat) (source target : String)
    (out : List Nat) (hok : to_565 input source target = Except.ok out)
    (i : Nat) (hi : i < input.length / 3) :
    out.getD (2 * i) 0 = spec_pack565 input source target i / 256 ∧
    out.getD (2 * i + 1) 0 = spec_pack565 input source target i % 256 := by
  have hout : out = output565 input source target := by
    by_cases h24 : input.length % 24 = 0
    · simp [to_565, h24] at hok
      exact hok.symm
    · simp [to_565, h24] at hok
  subst hout
  obtain ⟨g1, g2⟩ := output565_getD input source target i hi
  rw [spec_pack565_eq_format565]
  exact ⟨g1, g2⟩

/-- Witness for C5: the spec's order-swap scenario, pixel `[0xFF,0x00,0x80]`
with `source_order = rgb`, `target_order = bgr`, emitted as `[0x80, 0x1F]`. -/
theorem to_565_pixel_bigendian_witness :
    to_565 ([0xFF, 0x00, 0x80] ++ List.replicate 21 (7 : Nat)) "rgb" "bgr" =
      Except.ok [0x80, 0x1F, 0, 32, 0, 32, 0, 32, 0, 32, 0, 32, 0, 32, 0, 32] ∧
    0 < ([0xFF, 0x00, 0x80] ++ List.replicate 21 (7 : Nat)).length / 3 ∧
    ([0x80, 0x1F, 0, 32, 0, 32, 0, 32, 0, 32, 0, 32, 0, 32, 0, 32] :
        List Nat).getD (2 * 0) 0 =
      spec_pack565 ([0xFF, 0x00, 0x80] ++ List.replicate 21 (7 : Nat)) "rgb" "bgr" 0 / 256 ∧
    ([0x80, 0x1F, 0, 32, 0, 32, 0, 32, 0, 32, 0, 32, 0, 32, 0, 32] :
        List Nat).getD (2 * 0 + 1) 0 =
      spec_pack565 ([0xFF, 0x00, 0x80] ++ List.replicate 21 (7 : Nat)) "rgb" "bgr" 0 % 256 := by
  have hok : to_565 ([0xFF, 0x00, 0x80] ++ List.replicate 21 (7 : Nat)) "rgb" "bgr" =
      Except.ok [0x80, 0x1F, 0, 32, 0, 32, 0, 32, 0, 32, 0, 32, 0, 32, 0, 32] := rfl
  refine ⟨hok, by decide, ?_⟩
  exact to_565_pixel_bigendian ([0xFF, 0x00, 0x80] ++ List.replicate 21 (7 : Nat))
    "rgb" "bgr" [0x80, 0x1F, 0, 32, 0, 32, 0, 32, 0, 32, 0, 32, 0, 32, 0, 32]
    hok 0 (by decide)

/-- C6: converting with `source_order = target_order = rgb` and with
`source_order = target_order = bgr` produce identical results on every
input (the two channel swaps cancel). -/
theorem to_565_order_identity (input : List Nat) :
    to_565 input "rgb" "rgb" = to_565 input "bgr" "bgr" := by
  apply to_565_congr input input _ _ _ _ rfl
  intro i _
  simp [format565, r_offset, b_offset]

/-- C7: for every accepted input and pixel index, a pixel whose three
bytes are all 0xFF yields the output sample 0xFFFF (both emitted bytes
0xFF), and a pixel whose three bytes are all 0x00 yields the sample
0x0000, for every choice of source and target orders. -/
theorem to_565_extreme_pixels (input : List Nat) (source target : String)
    (i : Nat) (h24 : input.length % 24 = 0) (hi : i < input.length / 3) :
    ∃ out, to_565 input source target = Except.ok out ∧
      ((input.getD (3 * i) 0 = 0xFF ∧ input.getD (3 * i + 1) 0 = 0xFF ∧
        input.getD (3 * i + 2) 0 = 0xFF) →
        out.getD (2 * i) 0 = 0xFF ∧ out.getD (2 * i + 1) 0 = 0xFF) ∧
      ((input.getD (3 * i) 0 = 0 ∧ input.getD (3 * i + 1) 0 = 0 ∧
        input.getD (3 * i + 2) 0 = 0) →
        out.getD (2 * i) 0 = 0 ∧ out.getD (2 * i + 1) 0 = 0) := by
  refine ⟨output565 input source target, by simp [to_565, h24], ?_, ?_⟩
  · rintro ⟨h0, h1, h2⟩
    have hc := format565_const input source target i 0xFF
      (by rw [Nat.mul_comm i 3]; exact h0) (by rw [Nat.mul_comm i 3]; exact h1)
      (by rw [Nat.mul_comm i 3]; exact h2)
    have hv : format565 input source target i = 0xFFFF :=
      hc.trans (by decide)
    obtain ⟨g1, g2⟩ := output565_getD input source target i hi
    rw [hv] at g1 g2
    exact ⟨g1.trans (by norm_num), g2.trans (by norm_num)⟩
  · rintro ⟨h0, h1, h2⟩
    have hc := format565_const input source target i 0
      (by rw [Nat.mul_comm i 3]; exact h0) (by rw [Nat.mul_comm i 3]; exact h1)
      (by rw [Nat.mul_comm i 3]; exact h2)
    have hv : format565 input source target i = 0 :=
      hc.trans (by decide)
    obtain ⟨g1, g2⟩ := output565_getD input source target i hi
    rw [hv] at g1 g2
    exact ⟨g1.trans (by norm_num), g2.trans (by norm_num)⟩

/-- Witness for C7: a 24-byte input whose first pixel is all 0xFF, with
`source_order = bgr`, `target_order = rgb`, at pixel index 0. -/
theorem to_565_extreme_pixels_witness :
    ∃ out, to_565 ([255, 255, 255, 0, 0, 0] ++ List.replicate 18 (9 : Nat))
        "bgr" "rgb" = Except.ok out ∧
      ((([255, 255, 255, 0, 0, 0] ++ List.replicate 18 (9 : Nat)).getD (3 * 0) 0 = 0xFF ∧
        ([255, 255, 255, 0, 0, 0] ++ List.replicate 18 (9 : Nat)).getD (3 * 0 + 1) 0 = 0xFF ∧
        ([255, 255, 255, 0, 0, 0] ++ List.replicate 18 (9 : Nat)).getD (3 * 0 + 2) 0 = 0xFF) →
        out.getD (2 * 0) 0 = 0xFF ∧ out.getD (2 * 0 + 1) 0 = 0xFF) ∧
      ((([255, 255, 255, 0, 0, 0] ++ List.replicate 18 (9 : Nat)).getD (3 * 0) 0 = 0 ∧
        ([255, 255, 255, 0, 0, 0] ++ List.replicate 18 (9 : Nat)).getD (3 * 0 + 1) 0 = 0 ∧
        ([255, 255, 255, 0, 0, 0] ++ List.replicate 18 (9 : Nat)).getD (3 * 0 + 2) 0 = 0) →
        out.getD (2 * 0) 0 = 0 ∧ out.getD (2 * 0 + 1) 0 = 0) :=
  to_565_extreme_pixels ([255, 255, 255, 0, 0, 0] ++ List.replicate 18 (9 : Nat))
    "bgr" "rgb" 0 (by decide) (by decide)

end St7789

namespace St7789

/-- C8: the conversion behaves exactly as if every channel-order tag other
than `bgr` were `rgb`: for every input and every pair of tag values, the
result equals that of the call with each non-`bgr` tag replaced by `rgb`
(so no tag is ever rejected). -/
theorem to_565_tag_defaulting (input : List Nat) (source target : String) :
    to_565 input source target =
      to_565 input (if source = "bgr" then "bgr" else "rgb")
        (if target = "bgr" then "bgr" else "rgb") := by
  apply to_565_congr input input _ _ _ _ rfl
  intro i _
  by_cases hs : source = "bgr" <;> by_cases ht : target = "bgr" <;>
    simp [format565, r_offset, b_offset, hs, ht]

/-- C9: for every accepted input and either target order, converting with
`source_order = bgr` equals converting with `source_order = rgb` applied
to the input with each 3-byte pixel record reversed (the middle byte is
read as green either way). -/
theorem to_565_bgr_source_as_reversed (input : List Nat) (target : String)
    (h24 : input.length % 24 = 0) :
    to_565 input "bgr" target = to_565 (reverse_pixels input) "rgb" target := by
  apply to_565_congr input (reverse_pixels input) _ _ _ _
    (reverse_pixels_length input).symm
  intro i hi
  have hidx : 3 * i + 2 < input.length := by omega
  obtain ⟨g1, g2, g3⟩ := reverse_pixels_getD input i hidx
  simp only [List.getD_eq_getElem?_getD] at g1 g2 g3
  simp [format565, r_offset, b_offset]
  rw [Nat.mul_comm i 3, g1, g2, g3]

/-- C10: two accepted inputs of equal length that agree, in every pixel,
on the top 5 bits of both outer bytes and the top 6 bits of the middle
byte (i.e. on the retained bits of red, green and blue under either
source order) convert to byte-identical outputs: the discarded low bits
never influence the result. -/
theorem to_565_low_bits_ignored (a b : List Nat) (source target : String)
    (hlen : a.length = b.length) (h24 : a.length % 24 = 0)
    (h : ∀ i, i < a.length / 3 →
      a.getD (3 * i) 0 &&& 0xF8 = b.getD (3 * i) 0 &&& 0xF8 ∧
      a.getD (3 * i + 1) 0 &&& 0xFC = b.getD (3 * i + 1) 0 &&& 0xFC ∧
      a.getD (3 * i + 2) 0 &&& 0xF8 = b.getD (3 * i + 2) 0 &&& 0xF8) :
    to_565 a source target = to_565 b source target := by
  apply to_565_congr a b _ _ _ _ hlen
  intro i hi
  obtain ⟨m0, m1, m2⟩ := h i hi
  exact format565_congr a b source target i
    (by rw [Nat.mul_comm i 3]; exact m0)
    (by rw [Nat.mul_comm i 3]; exact m1)
    (by rw [Nat.mul_comm i 3]; exact m2)

/-- Witness for C9: a concrete 24-byte input and target order `rgb`. -/
theorem to_565_bgr_source_as_reversed_witness :
    (List.range 24).length % 24 = 0 ∧
    to_565 (List.range 24) "bgr" "rgb" =
      to_565 (reverse_pixels (List.range 24)) "rgb" "rgb" :=
  ⟨by decide, to_565_bgr_source_as_reversed (List.range 24) "rgb" (by decide)⟩

/-- Witness for C10: all-0xFF bytes versus bytes with low channel bits
cleared (0xF9/0xFD per position) produce identical output. -/
theorem to_565_low_bits_ignored_witness :
    (List.replicate 24 (255 : Nat)).length =
      ([0xF9, 0xFD, 0xF9, 0xF9, 0xFD, 0xF9, 0xF9, 0xFD, 0xF9, 0xF9, 0xFD, 0xF9,
        0xF9, 0xFD, 0xF9, 0xF9, 0xFD, 0xF9, 0xF9, 0xFD, 0xF9, 0xF9, 0xFD, 0xF9] :
        List Nat).length ∧
    (List.replicate 24 (255 : Nat)).length % 24 = 0 ∧
    (∀ i, i < (List.replicate 24 (255 : Nat)).length / 3 →
      (List.replicate 24 (255 : Nat)).getD (3 * i) 0 &&& 0xF8 =
        ([0xF9, 0xFD, 0xF9, 0xF9, 0xFD, 0xF9, 0xF9, 0xFD, 0xF9, 0xF9, 0xFD, 0xF9,
          0xF9, 0xFD, 0xF9, 0xF9, 0xFD, 0xF9, 0xF9, 0xFD, 0xF9, 0xF9, 0xFD, 0xF9] :
          List Nat).getD (3 * i) 0 &&& 0xF8 ∧
      (List.replicate 24 (255 : Nat)).getD (3 * i + 1) 0 &&& 0xFC =
        ([0xF9, 0xFD, 0xF9, 0xF9, 0xFD, 0xF9, 0xF9, 0xFD, 0xF9, 0xF9, 0xFD, 0xF9,
          0xF9, 0xFD, 0xF9, 0xF9, 0xFD, 0xF9, 0xF9, 0xFD, 0xF9, 0xF9, 0xFD, 0xF9] :
          List Nat).getD (3 * i + 1) 0 &&& 0xFC ∧
      (List.replicate 24 (255 : Nat)).getD (3 * i + 2) 0 &&& 0xF8 =
        ([0xF9, 0xFD, 0xF9, 0xF9, 0xFD, 0xF9, 0xF9, 0xFD, 0xF9, 0xF9, 0xFD, 0xF9,
          0xF9, 0xFD, 0xF9, 0xF9, 0xFD, 0xF9, 0xF9, 0xFD, 0xF9, 0xF9, 0xFD, 0xF9] :
          List Nat).getD (3 * i + 2) 0 &&& 0xF8) ∧
    to_565 (List.replicate 24 (255 : Nat)) "rgb" "bgr" =
      to_565 [0xF9, 0xFD, 0xF9, 0xF9, 0xFD, 0xF9, 0xF9, 0xFD, 0xF9, 0xF9, 0xFD, 0xF9,
              0xF9, 0xFD, 0xF9, 0xF9, 0xFD, 0xF9, 0xF9, 0xFD, 0xF9, 0xF9, 0xFD, 0xF9]
        "rgb" "bgr" :=
  ⟨by decide, by decide, by decide,
    to_565_low_bits_ignored (List.replicate 24 (255 : Nat))
      [0xF9, 0xFD, 0xF9, 0xF9, 0xFD, 0xF9, 0xF9, 0xFD, 0xF9, 0xF9, 0xFD, 0xF9,
       0xF9, 0xFD, 0xF9, 0xF9, 0xFD, 0xF9, 0xF9, 0xFD, 0xF9, 0xF9, 0xFD, 0xF9]
      "rgb" "bgr" (by decide) (by decide) (by decide)⟩

end St7789
